import Mathlib

/-!
Shallow embedding of the PDB structural summarizer of this repository.

The summarizer is `parse_pdb_info` in `src/static_pdb_viewer.py`
(duplicated verbatim inside `load_example_pdb` in `src/simple_app.py`);
the upload boundary is `upload_pdb` in `src/static_pdb_viewer.py`.
Python strings are modelled as `List Char` (the summarizer's public
entry points take `String` and convert), Python `set`s as `Finset`.
-/

/-- Python whitespace as stripped by `str.strip()` (the ASCII range;
`Char.ofNat 11` and `Char.ofNat 12` are vertical tab and form feed). -/
def pyIsSpace (c : Char) : Bool :=
  c == ' ' || c == '\t' || c == '\n' || c == '\r' ||
  c == Char.ofNat 11 || c == Char.ofNat 12

/-- Python `str.strip()`: remove leading and trailing whitespace. -/
def pyStrip (l : List Char) : List Char :=
  ((l.dropWhile pyIsSpace).reverse.dropWhile pyIsSpace).reverse

/-- Python slice `s[a:b]` for `a ≤ b`: the characters at indices
`a..b-1` that exist; never fails, shorter (possibly empty) when the
string ends early. -/
def pySlice (l : List Char) (a b : Nat) : List Char :=
  (l.drop a).take (b - a)

/-- The two-character terminator `\r\n` rewritten to the single
terminator `\n`; lone `\r` and lone `\n` are left alone. -/
def normalizeCRLF : List Char → List Char
  | [] => []
  | '\r' :: '\n' :: rest => '\n' :: normalizeCRLF rest
  | c :: rest => c :: normalizeCRLF rest

/-- The characters at which Python `str.splitlines()` breaks a line:
`\n`, `\r` (with `\r\n` as one terminator, handled by `normalizeCRLF`),
vertical tab `\v`, form feed `\f`, the separators `\x1c`, `\x1d` and
`\x1e`, next line `\x85`, and the Unicode line separator U+2028 and
paragraph separator U+2029. -/
def pyIsLineBreak (c : Char) : Bool :=
  c == '\n' || c == '\r' || c == Char.ofNat 11 || c == Char.ofNat 12 ||
  c == Char.ofNat 28 || c == Char.ofNat 29 || c == Char.ofNat 30 ||
  c == Char.ofNat 133 || c == Char.ofNat 8232 || c == Char.ofNat 8233

/-- Worker for `splitlines` over input whose `\r\n` pairs are already
normalized: `cur` is the current line, reversed. A terminator ends the
current line; a terminator at the very end of the input produces no
further line. -/
def splitlinesGo (cur : List Char) : List Char → List (List Char)
  | [] => [cur.reverse]
  | c :: rest =>
    if pyIsLineBreak c then
      cur.reverse :: (if rest.isEmpty then [] else splitlinesGo [] rest)
    else splitlinesGo (c :: cur) rest

/-- Python `str.splitlines()`: break at every terminator of
`pyIsLineBreak`, with `\r\n` counting as a single terminator. The empty
string yields no lines; a trailing terminator yields no trailing empty
line. -/
def splitlines (s : List Char) : List (List Char) :=
  if s.isEmpty then [] else splitlinesGo [] (normalizeCRLF s)

/-- A string that is a single line: it contains no character at which
`splitlines` would break it. -/
def lineFree (l : List Char) : Prop := ∀ c ∈ l, pyIsLineBreak c = false

instance (l : List Char) : Decidable (lineFree l) :=
  inferInstanceAs (Decidable (∀ c ∈ l, pyIsLineBreak c = false))

/-- The local state of `parse_pdb_info`'s loop: `atoms`, `residues`,
`chains`. -/
structure ParseState where
  atoms : Nat
  residues : Finset (List Char)
  chains : Finset Char
deriving DecidableEq

/-- `atoms = 0; residues = set(); chains = set()`. -/
def initState : ParseState := ⟨0, ∅, ∅⟩

/-- `line.startswith("ATOM") or line.startswith("HETATM")`: an exact
prefix match against the four characters `ATOM` or the six characters
`HETATM`. -/
def qualifies (l : List Char) : Bool :=
  List.isPrefixOf ['A', 'T', 'O', 'M'] l ||
  List.isPrefixOf ['H', 'E', 'T', 'A', 'T', 'M'] l

/-- The composite residue identity key `residue_id + chain_id`: the
one-character chain identifier is the final character of the key. -/
def residueKey (rid : List Char) (c : Char) : List Char := rid ++ [c]

/-- The Python exception that can occur inside the guarded region:
subscripting a string that is too short. -/
inductive PyErr where
  | indexError
deriving DecidableEq

/-- The body of the `try` block of `parse_pdb_info`:
`residue_id = line[22:27].strip()` (a slice, never fails), then
`chain_id = line[21]` (raises `IndexError` exactly when the line has at
most 21 characters), then `residues.add(residue_id + chain_id)` and
`chains.add(chain_id)`. -/
def tryBlock (l : List Char) (st : ParseState) : Except PyErr ParseState :=
  let rid := pyStrip (pySlice l 22 27)
  match l[21]? with
  | none => .error .indexError
  | some c =>
    .ok { st with residues := insert (residueKey rid c) st.residues,
                  chains := insert c st.chains }

/-- One iteration of the loop of `parse_pdb_info`: the prefix test, the
unconditional `atoms += 1` for a qualifying line, and the
`try`/`except: pass` around the column reads (an error leaves the sets
untouched but keeps the atom increment). -/
def stepLine (st : ParseState) (l : List Char) : ParseState :=
  if qualifies l then
    let st1 := { st with atoms := st.atoms + 1 }
    match tryBlock l st1 with
    | .ok st2 => st2
    | .error _ => st1
  else st

/-- The summary dictionary returned by `parse_pdb_info`:
`atoms`, `residues` (set size), `chains` (set size). -/
structure SummaryResult where
  atoms : Nat
  residues : Nat
  chains : Nat
deriving DecidableEq

/-- `parse_pdb_info` of `src/static_pdb_viewer.py`: split the content
into lines, fold the loop body over them, and report the atom count and
the two set cardinalities. -/
def parse_pdb_info (text : String) : SummaryResult :=
  let fin := (splitlines text.toList).foldl stepLine initState
  ⟨fin.atoms, fin.residues.card, fin.chains.card⟩

/-- One loop iteration in the exception monad: the loop body with the
`except: pass` handler applied exactly where the source has it, so any
`IndexError` of `tryBlock` is swallowed and never escapes the
iteration. -/
def stepLineE (st : ParseState) (l : List Char) : Except PyErr ParseState :=
  if qualifies l then
    let st1 := { st with atoms := st.atoms + 1 }
    .ok (match tryBlock l st1 with
         | .ok st2 => st2
         | .error _ => st1)
  else .ok st

/-- `parse_pdb_info` run in the exception monad: errors of any
iteration would propagate to the result. -/
def parse_pdb_infoE (text : String) : Except PyErr SummaryResult := do
  let fin ← (splitlines text.toList).foldlM stepLineE initState
  return ⟨fin.atoms, fin.residues.card, fin.chains.card⟩

/-- The loop body threaded through an arbitrary ambient environment
`σ`: the source body names nothing outside its own locals
(`atoms`, `residues`, `chains`, `line`), so the environment passes
through every iteration untouched. -/
def stepLineSt {σ : Type} (p : ParseState × σ) (l : List Char) :
    ParseState × σ :=
  (stepLine p.1 l, p.2)

/-- `parse_pdb_info` threaded through an arbitrary ambient environment,
returned alongside the result. -/
def parse_pdb_infoSt {σ : Type} (env : σ) (text : String) :
    SummaryResult × σ :=
  let fin := (splitlines text.toList).foldl stepLineSt (initState, env)
  (⟨fin.1.atoms, fin.1.residues.card, fin.1.chains.card⟩, fin.2)

/-- Python `sub in s` for strings: `sub` occurs as a contiguous
substring of `s`. -/
def pyContains (s sub : List Char) : Bool :=
  s.tails.any fun t => List.isPrefixOf sub t

/-- Python `str.lower()` on the ASCII filenames involved. -/
def pyLower (s : List Char) : List Char := s.map Char.toLower

/-- Python `str.endswith(suffix)`. -/
def pyEndsWith (s suffix : List Char) : Bool := List.isSuffixOf suffix s

/-- An uploaded file as `upload_pdb` sees it: the submitted filename
and the UTF-8-decoded content. -/
structure UploadedFile where
  filename : String
  content : String

/-- The responses of the `upload_pdb` route: a JSON error with an HTTP
status code, or the parsed info together with the echoed filename and
content. Only the `ok` constructor carries a summary, so a summary
exists in the response exactly when `parse_pdb_info` was invoked. -/
inductive UploadResponse where
  | fail (msg : String) (code : Nat)
  | ok (info : SummaryResult) (filename : String) (content : String)
deriving DecidableEq

/-- `upload_pdb` of `src/static_pdb_viewer.py`. `none` models a request
whose form has no `file` part; the filename checks, the extension
check and the content check run in the source's order, and only when
all pass is `parse_pdb_info` applied to the decoded content. -/
def upload_pdb (file : Option UploadedFile) : UploadResponse :=
  match file with
  | none => .fail "No file part in the request" 400
  | some f =>
    if f.filename = "" then .fail "No file selected" 400
    else if ¬ pyEndsWith (pyLower f.filename.toList) ['.', 'p', 'd', 'b'] then
      .fail "Not a PDB file (must end with .pdb)" 400
    else if ¬ (pyContains f.content.toList ['A', 'T', 'O', 'M'] ||
               pyContains f.content.toList ['H', 'E', 'T', 'A', 'T', 'M']) then
      .fail "Invalid PDB file format (no ATOM or HETATM entries)" 400
    else .ok (parse_pdb_info f.content) f.filename f.content

/-! ### Helper lemmas about the loop body -/

theorem stepLine_not_qualifies (st : ParseState) (l : List Char)
    (h : qualifies l = false) : stepLine st l = st := by
  simp [stepLine, h]

theorem stepLine_short (st : ParseState) (l : List Char)
    (hq : qualifies l = true) (hlen : l.length ≤ 21) :
    stepLine st l = { st with atoms := st.atoms + 1 } := by
  have h21 : l[21]? = none := List.getElem?_eq_none_iff.mpr hlen
  simp [stepLine, tryBlock, hq, h21]

theorem stepLine_long (st : ParseState) (l : List Char) (c : Char)
    (hq : qualifies l = true) (hc : l[21]? = some c) :
    stepLine st l =
      ⟨st.atoms + 1,
       insert (residueKey (pyStrip (pySlice l 22 27)) c) st.residues,
       insert c st.chains⟩ := by
  simp [stepLine, tryBlock, hq, hc]

/-- The chain character recoverable from a composite residue key: the
key's final character. -/
def lastChar (r : List Char) : Char := r.getLast?.getD ' '

theorem lastChar_residueKey (rid : List Char) (c : Char) :
    lastChar (residueKey rid c) = c := by
  simp [lastChar, residueKey]

/-- Loop invariant: the residue set never outgrows the atom counter,
and every seen chain is the final character of some seen residue key. -/
def StateInv (st : ParseState) : Prop :=
  st.residues.card ≤ st.atoms ∧ st.chains ⊆ st.residues.image lastChar

theorem stateInv_step (st : ParseState) (l : List Char) (h : StateInv st) :
    StateInv (stepLine st l) := by
  obtain ⟨h1, h2⟩ := h
  by_cases hq : qualifies l = true
  · cases hc : l[21]? with
    | none =>
      have hlen : l.length ≤ 21 := List.getElem?_eq_none_iff.mp hc
      rw [stepLine_short st l hq hlen]
      exact ⟨Nat.le_succ_of_le h1, h2⟩
    | some c =>
      rw [stepLine_long st l c hq hc]
      refine ⟨le_trans (Finset.card_insert_le _ _) (Nat.succ_le_succ h1), ?_⟩
      rw [Finset.image_insert, lastChar_residueKey]
      exact Finset.insert_subset_iff.mpr
        ⟨Finset.mem_insert_self _ _, h2.trans (Finset.subset_insert _ _)⟩
  · rw [stepLine_not_qualifies st l (by simpa using hq)]
    exact ⟨h1, h2⟩

theorem stateInv_foldl (lines : List (List Char)) (st : ParseState)
    (h : StateInv st) : StateInv (lines.foldl stepLine st) := by
  induction lines generalizing st with
  | nil => exact h
  | cons l ls ih => exact ih _ (stateInv_step st l h)

/-! ### C1 -/

/-- C1: for every input text, the summary satisfies
`chain_count ≤ residue_count ≤ atom_count`; moreover distinct chain
identifiers always yield distinct composite residue keys, because the
chain character is the final character of the concatenated key. -/
theorem c1_summary_invariant (text : String) :
    ((parse_pdb_info text).chains ≤ (parse_pdb_info text).residues ∧
     (parse_pdb_info text).residues ≤ (parse_pdb_info text).atoms) ∧
    ∀ r1 r2 : List Char, ∀ c1 c2 : Char, c1 ≠ c2 →
      residueKey r1 c1 ≠ residueKey r2 c2 := by
  refine ⟨?_, ?_⟩
  · have hinv : StateInv ((splitlines text.toList).foldl stepLine initState) :=
      stateInv_foldl _ _ ⟨by simp [initState], by simp [initState]⟩
    obtain ⟨h1, h2⟩ := hinv
    exact ⟨le_trans (Finset.card_le_card h2) Finset.card_image_le, h1⟩
  · intro r1 r2 c1 c2 hne heq
    apply hne
    have h := congrArg lastChar heq
    simpa [lastChar_residueKey] using h

/-- Witness for C1 at concrete inputs. -/
theorem c1_summary_invariant_witness :
    ((parse_pdb_info "ATOM").chains ≤ (parse_pdb_info "ATOM").residues ∧
     (parse_pdb_info "ATOM").residues ≤ (parse_pdb_info "ATOM").atoms) ∧
    residueKey ['1'] 'A' ≠ residueKey ['1'] 'B' :=
  ⟨(c1_summary_invariant "ATOM").1,
   (c1_summary_invariant "ATOM").2 ['1'] ['1'] 'A' 'B' (by decide)⟩

/-! ### C2 -/

/-- C2 (counterexample): the four-character line `ATOM` is shorter than
six characters, yet the source's `line.startswith("ATOM")` test accepts
it and `atom_count` is incremented, so the claim that a line shorter
than six characters never qualifies and never increments `atom_count`
is false. -/
theorem c2_counterexample :
    "ATOM".toList.length < 6 ∧ qualifies "ATOM".toList = true ∧
    (parse_pdb_info "ATOM").atoms = 1 := by
  exact ⟨by decide, by decide, by decide⟩

/-- C2 (amended): a line affects the counts only if it starts with the
four-character prefix `ATOM` or the six-character prefix `HETATM`; a
line shorter than four characters never qualifies and never changes the
loop state, so in particular it never increments `atom_count`. -/
theorem c2_prefix_gate (st : ParseState) (l : List Char) :
    (qualifies l = false → stepLine st l = st) ∧
    (l.length < 4 → qualifies l = false ∧ stepLine st l = st) := by
  refine ⟨stepLine_not_qualifies st l, fun hlen => ?_⟩
  have hq : qualifies l = false := by
    rw [qualifies, Bool.or_eq_false_iff]
    constructor
    · rw [Bool.eq_false_iff]
      intro hp
      have h := (List.isPrefixOf_iff_prefix.mp hp).length_le
      simp at h
      omega
    · rw [Bool.eq_false_iff]
      intro hp
      have h := (List.isPrefixOf_iff_prefix.mp hp).length_le
      simp at h
      omega
  exact ⟨hq, stepLine_not_qualifies st l hq⟩

/-- Witness for C2 (amended) at a concrete short line. -/
theorem c2_prefix_gate_witness :
    qualifies "TER".toList = false ∧
    stepLine initState "TER".toList = initState :=
  (c2_prefix_gate initState "TER".toList).2 (by decide)

/-! ### C3 -/

/-- C3: a qualifying line shorter than 22 characters still increments
`atom_count` by one, but leaves the residue set and the chain set
untouched: the chain subscript fails, the error is swallowed, and only
the already-performed atom increment survives. -/
theorem c3_truncated_record (st : ParseState) (l : List Char)
    (hq : qualifies l = true) (hlen : l.length < 22) :
    stepLine st l = { st with atoms := st.atoms + 1 } :=
  stepLine_short st l hq (by omega)

/-- Witness for C3: the qualifying four-character line `ATOM`. -/
theorem c3_truncated_record_witness :
    stepLine initState "ATOM".toList =
      { initState with atoms := initState.atoms + 1 } :=
  c3_truncated_record initState "ATOM".toList (by decide) (by decide)

/-! ### C6 -/

theorem foldl_stepLine_of_no_qualifying (lines : List (List Char))
    (st : ParseState) (h : ∀ l ∈ lines, qualifies l = false) :
    lines.foldl stepLine st = st := by
  induction lines generalizing st with
  | nil => rfl
  | cons l ls ih =>
    rw [List.foldl_cons, stepLine_not_qualifies st l (h l (by simp))]
    exact ih st fun x hx => h x (by simp [hx])

/-- C6: an input with no qualifying line — including the empty string
and texts made only of `HEADER`, `TER`, `END` lines — yields
`atoms = 0, residues = 0, chains = 0`. -/
theorem c6_no_qualifying_lines (text : String)
    (h : ∀ l ∈ splitlines text.toList, qualifies l = false) :
    parse_pdb_info text = ⟨0, 0, 0⟩ := by
  simp only [parse_pdb_info]
  rw [foldl_stepLine_of_no_qualifying _ _ h]
  rfl

/-- Witness for C6: the empty input and a header-only input. -/
theorem c6_no_qualifying_lines_witness :
    parse_pdb_info "" = ⟨0, 0, 0⟩ ∧
    parse_pdb_info "HEADER x\nTER\nEND" = ⟨0, 0, 0⟩ :=
  ⟨c6_no_qualifying_lines "" (by decide),
   c6_no_qualifying_lines "HEADER x\nTER\nEND" (by decide)⟩

/-! ### C7 -/

theorem stepLineE_eq_ok (st : ParseState) (l : List Char) :
    stepLineE st l = Except.ok (stepLine st l) := by
  unfold stepLineE stepLine
  by_cases hq : qualifies l = true <;> simp [hq]

theorem foldlM_stepLineE (lines : List (List Char)) (st : ParseState) :
    List.foldlM stepLineE st lines = Except.ok (lines.foldl stepLine st) := by
  induction lines generalizing st with
  | nil => rfl
  | cons l ls ih =>
    rw [List.foldlM_cons, stepLineE_eq_ok]
    exact ih (stepLine st l)

/-- C7: the summarizer raises no error on any input: run in the
exception monad, where the chain subscript is fallible and the
`except: pass` handler sits exactly where the source has it, it returns
`ok` of the pure summary for every text. -/
theorem c7_never_raises (text : String) :
    parse_pdb_infoE text = Except.ok (parse_pdb_info text) := by
  simp only [parse_pdb_infoE, parse_pdb_info]
  rw [foldlM_stepLineE]
  rfl

/-! ### C8 -/

theorem foldl_stepLineSt {σ : Type} (lines : List (List Char))
    (st : ParseState) (env : σ) :
    lines.foldl stepLineSt (st, env) = (lines.foldl stepLine st, env) := by
  induction lines generalizing st with
  | nil => rfl
  | cons l ls ih => exact ih (stepLine st l)

/-- C8: the summarizer is a deterministic pure function of its text:
threaded through an arbitrary ambient environment it returns that
environment untouched together with the pure result, and identical
texts yield identical results. -/
theorem c8_pure_function (σ : Type) (env : σ) (text t1 t2 : String)
    (h : t1 = t2) :
    parse_pdb_infoSt env text = (parse_pdb_info text, env) ∧
    parse_pdb_info t1 = parse_pdb_info t2 := by
  constructor
  · simp only [parse_pdb_infoSt, parse_pdb_info]
    rw [foldl_stepLineSt]
  · rw [h]

/-- Witness for C8 at a concrete environment and text. -/
theorem c8_pure_function_witness :
    parse_pdb_infoSt (0 : Nat) "ATOM" = (parse_pdb_info "ATOM", 0) ∧
    parse_pdb_info "ATOM" = parse_pdb_info "ATOM" :=
  c8_pure_function Nat 0 "ATOM" "ATOM" "ATOM" rfl

theorem normalizeCRLF_cons (c : Char) (hc : c ≠ '\r') (rest : List Char) :
    normalizeCRLF (c :: rest) = c :: normalizeCRLF rest := by
  rw [normalizeCRLF.eq_def]
  split
  · simp_all
  · rename_i heq
    injection heq with h1 h2
    exact absurd h1 hc
  · rename_i c2 r2 heq
    injection heq with h1 h2
    rw [h1, h2]

theorem normalizeCRLF_append (l s : List Char) (h : '\r' ∉ l) :
    normalizeCRLF (l ++ s) = l ++ normalizeCRLF s := by
  induction l with
  | nil => rfl
  | cons c l ih =>
    have hc : c ≠ '\r' := fun he => h (he ▸ List.mem_cons_self c l)
    rw [List.cons_append, normalizeCRLF_cons c hc,
        ih (fun hm => h (List.mem_cons_of_mem c hm)), List.cons_append]

theorem normalizeCRLF_of_no_cr (l : List Char) (h : '\r' ∉ l) :
    normalizeCRLF l = l := by
  have he := normalizeCRLF_append l [] h
  rw [List.append_nil, show normalizeCRLF ([] : List Char) = [] from rfl,
      List.append_nil] at he
  exact he

theorem splitlinesGo_append (l : List Char) (hl : lineFree l) :
    ∀ cur s, splitlinesGo cur (l ++ s) = splitlinesGo (l.reverse ++ cur) s := by
  induction l with
  | nil => intro cur s; simp
  | cons c l ih =>
    intro cur s
    have hc : pyIsLineBreak c = false := hl c (List.mem_cons_self c l)
    rw [List.cons_append]
    show splitlinesGo cur (c :: (l ++ s)) = _
    rw [splitlinesGo]
    rw [if_neg (by simp [hc])]
    rw [ih (fun x hx => hl x (List.mem_cons_of_mem c hx))]
    simp [List.reverse_cons, List.append_assoc]

theorem splitlinesGo_single (l : List Char) (hl : lineFree l) :
    splitlinesGo [] l = [l] := by
  have h := splitlinesGo_append l hl [] []
  rw [List.append_nil, List.append_nil] at h
  rw [h, show splitlinesGo l.reverse [] = [l.reverse.reverse] from rfl,
      List.reverse_reverse]

theorem qualifies_ne_nil (l : List Char) (h : qualifies l = true) : l ≠ [] := by
  intro hnil
  subst hnil
  exact absurd h (by decide)

theorem splitlines_two (l1 l2 : List Char)
    (h1 : lineFree l1) (h2 : lineFree l2) (hne : l2 ≠ []) :
    splitlines (l1 ++ '\n' :: l2) = [l1, l2] := by
  have h1r : '\r' ∉ l1 := fun hm => absurd (h1 '\r' hm) (by decide)
  have h2r : '\r' ∉ l2 := fun hm => absurd (h2 '\r' hm) (by decide)
  have hempty : (l1 ++ '\n' :: l2).isEmpty = false := by
    simp [List.isEmpty_iff]
  rw [splitlines, hempty]
  show splitlinesGo [] (normalizeCRLF (l1 ++ '\n' :: l2)) = [l1, l2]
  rw [normalizeCRLF_append l1 ('\n' :: l2) h1r,
      normalizeCRLF_cons '\n' (by decide) l2,
      normalizeCRLF_of_no_cr l2 h2r,
      splitlinesGo_append l1 h1 [] ('\n' :: l2)]
  rw [splitlinesGo]
  rw [if_pos (by decide)]
  have hie : l2.isEmpty = false := by simp [List.isEmpty_iff, hne]
  rw [hie]
  simp only [Bool.false_eq_true, if_false, List.append_nil, List.reverse_reverse]
  rw [splitlinesGo_single l2 h2]

theorem parse_two_lines (l1 l2 : List Char)
    (h1 : lineFree l1) (h2 : lineFree l2) (hne : l2 ≠ []) :
    parse_pdb_info (String.mk (l1 ++ '\n' :: l2)) =
      ⟨(stepLine (stepLine initState l1) l2).atoms,
       (stepLine (stepLine initState l1) l2).residues.card,
       (stepLine (stepLine initState l1) l2).chains.card⟩ := by
  simp only [parse_pdb_info]
  rw [show (String.mk (l1 ++ '\n' :: l2)).toList = l1 ++ '\n' :: l2 from rfl]
  rw [splitlines_two l1 l2 h1 h2 hne]
  rfl

/-! ### Helper lemmas about line splitting and the fixed columns -/

theorem pySlice_chain_eq (l : List Char) : (pySlice l 21 27)[0]? = l[21]? := by
  rw [pySlice, List.getElem?_take_of_lt (by norm_num : (0:Nat) < 27 - 21),
      List.getElem?_drop]

theorem pySlice_res_eq (l : List Char) :
    pySlice l 22 27 = (pySlice l 21 27).drop 1 := by
  rw [pySlice, pySlice, show (27:Nat) - 21 = 6 from rfl,
      show (27:Nat) - 22 = 5 from rfl, List.drop_take 6 1 (l.drop 21),
      List.drop_drop, show (21 + 1 : Nat) = 22 from rfl]

/-! ### C4 -/

/-- C4: deduplication keys only on the fixed columns. First part: two
qualifying lines with identical characters in columns 22 through 27
(1-indexed; `pySlice l 21 27`) contribute 2 atoms but only 1 residue and
1 chain, whatever their other content. Second part: two qualifying lines
with identical residue-sequence field (columns 23 to 27, `pySlice l 22 27`)
but different chain characters at column 22 contribute 2 distinct residue
keys and 2 distinct chain identifiers. The `lineFree` hypotheses say
the lines contain no character at which `splitlines` breaks, so the
two-line text splits back into exactly these two lines. -/
theorem c4_dedup_columns :
    (∀ l1 l2 : List Char,
      qualifies l1 = true → qualifies l2 = true →
      lineFree l1 → lineFree l2 →
      27 ≤ l1.length →
      pySlice l1 21 27 = pySlice l2 21 27 →
      parse_pdb_info (String.mk (l1 ++ '\n' :: l2)) = ⟨2, 1, 1⟩) ∧
    (∀ l1 l2 : List Char, ∀ c1 c2 : Char,
      qualifies l1 = true → qualifies l2 = true →
      lineFree l1 → lineFree l2 →
      l1[21]? = some c1 → l2[21]? = some c2 → c1 ≠ c2 →
      pySlice l1 22 27 = pySlice l2 22 27 →
      parse_pdb_info (String.mk (l1 ++ '\n' :: l2)) = ⟨2, 2, 2⟩) := by
  constructor
  · intro l1 l2 hq1 hq2 h1 h2 hlen hcols
    obtain ⟨c, hc1⟩ : ∃ c, l1[21]? = some c :=
      ⟨l1.get ⟨21, by omega⟩, by
        rw [List.getElem?_eq_getElem (by omega : 21 < l1.length)]
        simp [List.get_eq_getElem]⟩
    have hc2 : l2[21]? = some c := by
      rw [← pySlice_chain_eq, ← hcols, pySlice_chain_eq, hc1]
    have hres : pySlice l1 22 27 = pySlice l2 22 27 := by
      rw [pySlice_res_eq, pySlice_res_eq, hcols]
    rw [parse_two_lines l1 l2 h1 h2 (qualifies_ne_nil l2 hq2)]
    rw [stepLine_long initState l1 c hq1 hc1]
    rw [stepLine_long _ l2 c hq2 hc2]
    rw [← hres]
    simp [initState]
  · intro l1 l2 c1 c2 hq1 hq2 h1 h2 hc1 hc2 hcc hres
    rw [parse_two_lines l1 l2 h1 h2 (qualifies_ne_nil l2 hq2)]
    rw [stepLine_long initState l1 c1 hq1 hc1]
    rw [stepLine_long _ l2 c2 hq2 hc2]
    rw [← hres]
    have hk : residueKey (pyStrip (pySlice l1 22 27)) c2 ≠
        residueKey (pyStrip (pySlice l1 22 27)) c1 := by
      intro he
      have h := congrArg lastChar he
      rw [lastChar_residueKey, lastChar_residueKey] at h
      exact hcc h.symm
    simp [initState, Finset.card_insert_of_not_mem, Finset.mem_singleton, hk,
      Ne.symm hcc]

/-- Witness for C4 at concrete line pairs. -/
theorem c4_dedup_columns_witness :
    parse_pdb_info (String.mk ("ATOM                 A  42 tailX".toList ++
      '\n' :: "HETATM               A  42 other".toList)) = ⟨2, 1, 1⟩ ∧
    parse_pdb_info (String.mk ("ATOM                 A".toList ++
      '\n' :: "ATOM                 B".toList)) = ⟨2, 2, 2⟩ :=
  ⟨c4_dedup_columns.1 "ATOM                 A  42 tailX".toList
      "HETATM               A  42 other".toList
      (by decide) (by decide) (by decide) (by decide) (by decide) (by decide),
   c4_dedup_columns.2 "ATOM                 A".toList
      "ATOM                 B".toList 'A' 'B'
      (by decide) (by decide) (by decide) (by decide) (by decide) (by decide)
      (by decide) (by decide)⟩

/-! ### C10 -/

/-- C10: whenever the chain character at column 22 exists (`l[21]?` is
`some`), a qualifying line inserts into both the residue-key set and the
chain set, using the truncated — for lines shorter than 27 characters,
`pySlice l 22 27` is just `l.drop 22`, possibly empty — residue-sequence
field; set insertion is skipped only when the line length is at most 21. -/
theorem c10_insert_policy (st : ParseState) (l : List Char) (c : Char) :
    (qualifies l = true → l[21]? = some c →
      stepLine st l =
        ⟨st.atoms + 1,
         insert (residueKey (pyStrip (pySlice l 22 27)) c) st.residues,
         insert c st.chains⟩) ∧
    (l.length < 27 → pySlice l 22 27 = l.drop 22) ∧
    (qualifies l = true → l.length ≤ 21 →
      stepLine st l = { st with atoms := st.atoms + 1 }) := by
  refine ⟨fun hq hc => stepLine_long st l c hq hc, fun hlen => ?_,
          fun hq hlen => stepLine_short st l hq hlen⟩
  rw [pySlice]
  exact List.take_of_length_le (by rw [List.length_drop]; omega)

/-- Witness for C10: a qualifying line of length 22 whose residue field
is empty still inserts into both sets. -/
theorem c10_insert_policy_witness :
    stepLine initState "ATOM                 A".toList =
      ⟨initState.atoms + 1,
       insert (residueKey
         (pyStrip (pySlice "ATOM                 A".toList 22 27)) 'A')
         initState.residues,
       insert 'A' initState.chains⟩ ∧
    pySlice "ATOM                 A".toList 22 27 =
      "ATOM                 A".toList.drop 22 :=
  ⟨(c10_insert_policy initState "ATOM                 A".toList 'A').1
      (by decide) (by decide),
   (c10_insert_policy initState "ATOM                 A".toList 'A').2.1
      (by decide)⟩

/-! ### C5 -/

/-- C5: on the spec's concrete two-line example (both chain `A`, residue
sequence 1) the summarizer returns `atoms=2, residues=1, chains=1`; with
the second line's chain changed to `B` it returns
`atoms=2, residues=2, chains=2`. -/
theorem c5_example_end_to_end :
    parse_pdb_info ("ATOM      1  N   ALA A   1      11.104  13.207   2.500  1.00 20.00           N\nATOM      2  CA  ALA A   1      11.900  12.000   3.200  1.00 18.50           C") = ⟨2, 1, 1⟩ ∧
    parse_pdb_info ("ATOM      1  N   ALA A   1      11.104  13.207   2.500  1.00 20.00           N\nATOM      2  CA  ALA B   1      11.900  12.000   3.200  1.00 18.50           C") = ⟨2, 2, 2⟩ :=
  ⟨by decide, by decide⟩

/-! ### C9 -/

/-- C9: the upload boundary rejects invalid input before the summarizer
runs. If the lower-cased filename does not end in `.pdb`, or the decoded
content contains neither `ATOM` nor `HETATM`, `upload_pdb` answers an
error response; and an `ok` response — the only constructor carrying a
summary, i.e. the only path on which `parse_pdb_info` is invoked —
implies both checks passed and the summary is `parse_pdb_info` of the
content. -/
theorem c9_upload_boundary (f : UploadedFile) :
    (pyEndsWith (pyLower f.filename.toList) ['.', 'p', 'd', 'b'] = false →
      ∃ msg, upload_pdb (some f) = .fail msg 400) ∧
    ((pyContains f.content.toList ['A', 'T', 'O', 'M'] ||
      pyContains f.content.toList ['H', 'E', 'T', 'A', 'T', 'M']) = false →
      ∃ msg, upload_pdb (some f) = .fail msg 400) ∧
    (∀ info fn c, upload_pdb (some f) = .ok info fn c →
      pyEndsWith (pyLower f.filename.toList) ['.', 'p', 'd', 'b'] = true ∧
      (pyContains f.content.toList ['A', 'T', 'O', 'M'] ||
       pyContains f.content.toList ['H', 'E', 'T', 'A', 'T', 'M']) = true ∧
      info = parse_pdb_info f.content) := by
  have hu : upload_pdb (some f) =
      (if f.filename = "" then UploadResponse.fail "No file selected" 400
       else if ¬ pyEndsWith (pyLower f.filename.toList) ['.', 'p', 'd', 'b'] then
         UploadResponse.fail "Not a PDB file (must end with .pdb)" 400
       else if ¬ (pyContains f.content.toList ['A', 'T', 'O', 'M'] ||
                  pyContains f.content.toList ['H', 'E', 'T', 'A', 'T', 'M']) then
         UploadResponse.fail "Invalid PDB file format (no ATOM or HETATM entries)" 400
       else .ok (parse_pdb_info f.content) f.filename f.content) := rfl
  by_cases h0 : f.filename = ""
  · rw [hu, if_pos h0]
    exact ⟨fun _ => ⟨"No file selected", rfl⟩, fun _ => ⟨"No file selected", rfl⟩,
           fun info fn c hok => UploadResponse.noConfusion hok⟩
  · by_cases hext :
        pyEndsWith (pyLower f.filename.toList) ['.', 'p', 'd', 'b'] = true
    · rw [hu, if_neg h0, if_neg (fun h => h hext)]
      by_cases hcont : (pyContains f.content.toList ['A', 'T', 'O', 'M'] ||
          pyContains f.content.toList ['H', 'E', 'T', 'A', 'T', 'M']) = true
      · rw [if_neg (fun h => h hcont)]
        refine ⟨fun hf => ?_, fun hf => ?_, ?_⟩
        · rw [hf] at hext
          exact absurd hext (by decide)
        · rw [hf] at hcont
          exact absurd hcont (by decide)
        · intro info fn c hok
          injection hok with h1 h2 h3
          exact ⟨hext, hcont, h1.symm⟩
      · rw [Bool.not_eq_true] at hcont
        rw [if_pos (show ¬ _ = true by rw [hcont]; exact Bool.false_ne_true)]
        refine ⟨fun hf => ?_,
          fun _ => ⟨"Invalid PDB file format (no ATOM or HETATM entries)", rfl⟩,
          fun info fn c hok => UploadResponse.noConfusion hok⟩
        rw [hf] at hext
        exact absurd hext (by decide)
    · rw [Bool.not_eq_true] at hext
      rw [hu, if_neg h0,
          if_pos (show ¬ _ = true by rw [hext]; exact Bool.false_ne_true)]
      exact ⟨fun _ => ⟨"Not a PDB file (must end with .pdb)", rfl⟩,
             fun _ => ⟨"Not a PDB file (must end with .pdb)", rfl⟩,
             fun info fn c hok => UploadResponse.noConfusion hok⟩

/-- Witness for C9: a rejected extension, rejected content, and an
accepted upload. -/
theorem c9_upload_boundary_witness :
    (∃ msg, upload_pdb (some ⟨"x.txt", "ATOM"⟩) = .fail msg 400) ∧
    (∃ msg, upload_pdb (some ⟨"x.pdb", "nothing"⟩) = .fail msg 400) ∧
    (pyEndsWith (pyLower ("x.PDB" : String).toList) ['.', 'p', 'd', 'b'] = true ∧
     (pyContains ("ATOM" : String).toList ['A', 'T', 'O', 'M'] ||
      pyContains ("ATOM" : String).toList ['H', 'E', 'T', 'A', 'T', 'M']) = true ∧
     (⟨1, 0, 0⟩ : SummaryResult) = parse_pdb_info "ATOM") :=
  ⟨(c9_upload_boundary ⟨"x.txt", "ATOM"⟩).1 (by decide),
   (c9_upload_boundary ⟨"x.pdb", "nothing"⟩).2.1 (by decide),
   (c9_upload_boundary ⟨"x.PDB", "ATOM"⟩).2.2 ⟨1, 0, 0⟩ "x.PDB" "ATOM"
     (by decide)⟩
